import Mathlib

/-!
# Orange Forum: the `models` package over a relational store

A shallow embedding of `models/models.go`.  Every Go function that talks to the
database is a Lean function that takes the current contents of the store and
returns its result together with the new contents.  The clock, the random source
and the bcrypt hash generator are explicit arguments.
-/

namespace models

/-! ## Go runtime pieces used by the package -/

/-- Go `error` values that the package can return: the three package-level
sentinels, an `errors.New` value built in place, and an error produced by an
external library (bcrypt). -/
inductive Error where
  | ErrIncorrectPasswd
  | ErrUserNotFound
  | ErrUserAlreadyExists
  | New (msg : String)
  | External (msg : String)
deriving DecidableEq, Repr

deriving instance DecidableEq for Except

/-- Go `time.Time` as nanoseconds since the Unix epoch.  A reading of the clock
(`time.Now()`) and the instants a few days around it are far from the limits of the
representation, so they are kept as integers; the seconds read back from the store
are an arbitrary `int64`, and `timeUnix` wraps on them as Go does. -/
abbrev Time := Int

/-- Go `time.Duration`: a count of nanoseconds. -/
abbrev Duration := Int

/-- Go `time.Second`. -/
def Second : Duration := 1000000000

/-- Go `time.Minute`. -/
def Minute : Duration := 60 * Second

/-- Go `time.Hour`. -/
def Hour : Duration := 60 * Minute

/-- Go `unixToInternal`: the seconds from year 1 to the Unix epoch. -/
def unixToInternal : Int := (1969 * 365 + 1969 / 4 - 1969 / 100 + 1969 / 400) * 86400

/-- Two's-complement wrap-around of an `int64` sum. -/
def wrapInt64 (x : Int) : Int := (x + 2 ^ 63) % 2 ^ 64 - 2 ^ 63

/-- Go `time.Unix(sec, 0)`: the library keeps `sec + unixToInternal` in an `int64`,
which wraps around for `sec` above `9223371974719179007`; the instant it then holds
is that wrapped count of seconds since year 1. -/
def timeUnix (sec : Int) : Time :=
  (wrapInt64 (sec + unixToInternal) - unixToInternal) * Second

/-- The `int64` seconds that `time.Unix` reads without wrapping. -/
def InUnixRange (sec : Int) : Prop :=
  -9223372036854775808 ≤ sec ∧ sec ≤ 9223371974719179007

instance (sec : Int) : Decidable (InUnixRange sec) := by
  unfold InUnixRange
  infer_instance

/-- Go `t.Unix()`: whole seconds since the epoch, rounded down. -/
def Time.Unix (t : Time) : Int := Int.fdiv t Second

/-- Go `t.Add(d)`. -/
def Time.Add (t : Time) (d : Duration) : Time := t + d

/-- Go `t.After(u)`: strictly later. -/
def Time.After (t u : Time) : Bool := decide (u < t)

/-- Go `hex.EncodeToString` on one nibble. -/
def hexDigit (n : Nat) : Char :=
  "0123456789abcdef".toList.getD (n % 16) '0'

/-- Go `hex.EncodeToString`: two lower-case hex digits per byte. -/
def hexEncodeToString (bs : List Nat) : String :=
  String.mk (bs.flatMap fun b => [hexDigit (b % 256 / 16), hexDigit (b % 256 % 16)])

/-- The outcome of `bcrypt.GenerateFromPassword([]byte(passwd), bcrypt.DefaultCost)`:
the hash bytes, or the error the library reports.  The library is external (and
salts at random), so each call site receives it as an argument. -/
abbrev Bcrypt := String → Except Error (List Nat)

/-! ## The persistent store -/

/-- Modelled from the spec: a row of table `users` (package `db`, which creates
the schema, is not part of the sources).  Timestamps are integer epoch seconds. -/
structure UserRow where
  id : Int
  username : String
  passwdhash : String
  email : String
  about : String
  karma : Int
  is_banned : Bool
  is_superadmin : Bool
  reset_token : String
  reset_token_date : Int
  created_date : Int
  updated_date : Int
deriving DecidableEq, Repr

/-- Modelled from the spec: a row of table `groups`.  The Go layer binds and reads
group ids and the boolean-like flags as strings (`"0"`/`"1"`), so they are kept in
that form. -/
structure GroupRow where
  id : String
  name : String
  desc : String
  header_msg : String
  is_sticky : String
  is_private : String
  is_closed : String
  created_date : Int
  updated_date : Int
deriving DecidableEq, Repr

/-- Modelled from the spec: a row of table `topics`. -/
structure TopicRow where
  id : Int
  content : String
  authorid : Int
  groupid : String
  is_deleted : Bool
  is_sticky : Bool
  is_closed : Bool
  num_comments : Int
  upvotes : Int
  downvotes : Int
  flagvotes : Int
  created_date : Int
  updated_date : Int
deriving DecidableEq, Repr

/-- Modelled from the spec: a row of table `mods`. -/
structure ModRow where
  id : Int
  userid : Int
  groupid : String
  created_date : Int
deriving DecidableEq, Repr

/-- Modelled from the spec: a row of table `admins`. -/
structure AdminRow where
  id : Int
  userid : Int
  groupid : String
  created_date : Int
deriving DecidableEq, Repr

/-- Modelled from the spec: a row of table `configs` (key unique, value a string). -/
structure ConfigRow where
  key : String
  val : String
deriving DecidableEq, Repr

/-- Modelled from the spec: the contents of the relational store, one list of rows
per table, in the store's default row order. -/
structure Store where
  users : List UserRow
  groups : List GroupRow
  topics : List TopicRow
  mods : List ModRow
  admins : List AdminRow
  configs : List ConfigRow
deriving DecidableEq, Repr

/-- Modelled from the spec: the store-assigned identifier of a new row, one more
than the largest identifier in the table. -/
def nextId (ids : List Int) : Int := ids.foldl max 0 + 1

/-- Modelled from the spec: what `INSERT INTO users(username, passwdhash, email,
is_superadmin)` stores; the columns the statement does not name take the empty or
zero default. -/
def newUserRow (id : Int) (userName passwdHash email : String) (isSuperAdmin : Bool) :
    UserRow :=
  { id := id, username := userName, passwdhash := passwdHash, email := email,
    about := "", karma := 0, is_banned := false, is_superadmin := isSuperAdmin,
    reset_token := "", reset_token_date := 0, created_date := 0, updated_date := 0 }

/-- Modelled from the spec: `INSERT OR REPLACE INTO configs(key, val)` with `key`
unique: the rows holding the key are dropped and the new row is stored. -/
def insertOrReplaceConfig (rows : List ConfigRow) (key val : String) : List ConfigRow :=
  rows.filter (fun r => r.key != key) ++ [{ key := key, val := val }]

/-! ## Configuration keys -/

def ForumName : String := "forum_name"
def HeaderMsg : String := "header_msg"
def SignupDisabled : String := "signup_disabled"
def GroupCreationDisabled : String := "group_creation_disabled"
def ImageUploadEnabled : String := "image_upload_enabled"
def FileUploadEnabled : String := "file_upload_enabled"
def AllowGroupSubscription : String := "allow_group_subscription"
def AllowTopicSubscription : String := "allow_topic_subscription"
def DataDir : String := "data_dir"
def DefaultFromMail : String := "default_from_mail"
def SMTPHost : String := "smtp_host"
def SMTPPort : String := "smtp_port"
def SMTPUser : String := "smtp_user"
def SMTPPass : String := "smtp_pass"

/-! ## Users -/

/-- Go `createUser`: hash first, then look the username up, insert when absent. -/
def createUser (s : Store) (bcrypt : Bcrypt) (userName passwd email : String)
    (isSuperAdmin : Bool) : Option Error × Store :=
  match bcrypt passwd with
  | .ok passwdHash =>
    match s.users.find? (fun r => r.username == userName) with
    | none =>
      (none, { s with users := s.users ++
        [newUserRow (nextId (s.users.map (·.id))) userName (hexEncodeToString passwdHash)
          email isSuperAdmin] })
    | some _ => (some Error.ErrUserAlreadyExists, s)
  | .error err => (some err, s)

/-- Go `CreateUser`. -/
def CreateUser (s : Store) (bcrypt : Bcrypt) (userName passwd email : String) :
    Option Error × Store :=
  createUser s bcrypt userName passwd email false

/-- Go `CreateSuperUser`. -/
def CreateSuperUser (s : Store) (bcrypt : Bcrypt) (userName passwd : String) :
    Option Error × Store :=
  createUser s bcrypt userName passwd "" true

/-- Go `ReadUserNameByToken`, at clock reading `now`. -/
def ReadUserNameByToken (s : Store) (now : Time) (resetToken : String) :
    Except Error String :=
  if resetToken.utf8ByteSize > 0 then
    match s.users.find? (fun r => r.reset_token == resetToken) with
    | some r =>
      if Time.After (timeUnix r.reset_token_date) (Time.Add now (-48 * Hour)) then
        .ok r.username
      else .error (Error.New "Invalid/Expired reset token.")
    | none => .error (Error.New "Invalid/Expired reset token.")
  else .error (Error.New "Invalid/Expired reset token.")

/-- Go `ReadUserIDByName`. -/
def ReadUserIDByName (s : Store) (userName : String) : Except Error Int :=
  match s.users.find? (fun r => r.username == userName) with
  | some r => .ok r.id
  | none => .error (Error.New "User not found.")

/-- Go `UpdateUserPasswd`: on a successful hash, one `UPDATE` sets the hash and
clears the reset token and its date on the rows of `userName`. -/
def UpdateUserPasswd (s : Store) (bcrypt : Bcrypt) (userName passwd : String) :
    Option Error × Store :=
  match bcrypt passwd with
  | .ok passwdHash =>
    (none, { s with users := s.users.map fun r =>
      if r.username == userName then
        { r with passwdhash := hexEncodeToString passwdHash, reset_token := "",
                 reset_token_date := 0 }
      else r })
  | .error err => (some err, s)

/-- The alphabet of `RandSeq`. -/
def letters : List Char :=
  "0123456789abcdefghijklmnopqrstuvwxyzABCDEFGHIJKLMNOPQRSTUVWXYZ".toList

/-- Go `rand.Intn(n)` on the raw value the source draws: panics (`none`) for
`n ≤ 0`, otherwise reduces the draw modulo `n`. -/
def Intn (n : Int) (raw : Nat) : Option Nat :=
  if n ≤ 0 then none else some (raw % n.toNat)

/-- Go `RandSeq`: `rnd i` is the raw value of the `i`-th draw.  `none` stands for a
panic (`make` with a negative length, or an index outside `letters`). -/
def RandSeq (n : Int) (rnd : Nat → Nat) : Option String :=
  if n < 0 then none
  else
    ((List.range n.toNat).mapM fun i =>
      (Intn letters.length (rnd i)).bind fun k => letters.get? k).map String.mk

/-- Go `CreateResetToken`, at clock reading `now`: the token and the new store. -/
def CreateResetToken (s : Store) (rnd : Nat → Nat) (now : Time) (userName : String) :
    Option (String × Store) :=
  (RandSeq 64 rnd).map fun resetToken =>
    (resetToken, { s with users := s.users.map fun r =>
      if r.username == userName then
        { r with reset_token := resetToken, reset_token_date := Time.Unix now }
      else r })

/-! ## Groups, moderators and administrators -/

/-- Go `ReadGroupIsDeleted`. -/
def ReadGroupIsDeleted (s : Store) (groupID : String) : Bool :=
  match s.groups.find? (fun g => g.id == groupID) with
  | some g => g.is_closed == "1"
  | none => false

/-- Go `DeleteGroup`. -/
def DeleteGroup (s : Store) (groupID : String) : Store :=
  { s with groups := s.groups.map fun g =>
      if g.id == groupID then { g with is_closed := "1" } else g }

/-- Go `UndeleteGroup`. -/
def UndeleteGroup (s : Store) (groupID : String) : Store :=
  { s with groups := s.groups.map fun g =>
      if g.id == groupID then { g with is_closed := "0" } else g }

/-- Go `CreateMod`, at clock reading `now`. -/
def CreateMod (s : Store) (now : Time) (userName groupID : String) : Store :=
  match ReadUserIDByName s userName with
  | .ok uid =>
    { s with mods := s.mods ++
        [{ id := nextId (s.mods.map (·.id)), userid := uid, groupid := groupID,
           created_date := Time.Unix now }] }
  | .error _ => s

/-- Go `ReadMods`: the usernames of the join of `users` and `mods` on the user id,
restricted to the group. -/
def ReadMods (s : Store) (groupID : String) : List String :=
  s.users.flatMap fun u =>
    (s.mods.filter fun m => u.id == m.userid && m.groupid == groupID).map fun _ => u.username

/-- Go `DeleteMods`: the statement it runs is `DELETE FROM admins WHERE groupid=?`. -/
def DeleteMods (s : Store) (groupID : String) : Store :=
  { s with admins := s.admins.filter fun a => !(a.groupid == groupID) }

/-- Go `CreateAdmin`, at clock reading `now`. -/
def CreateAdmin (s : Store) (now : Time) (userName groupID : String) : Store :=
  match ReadUserIDByName s userName with
  | .ok uid =>
    { s with admins := s.admins ++
        [{ id := nextId (s.admins.map (·.id)), userid := uid, groupid := groupID,
           created_date := Time.Unix now }] }
  | .error _ => s

/-- Go `ReadAdmins`. -/
def ReadAdmins (s : Store) (groupID : String) : List String :=
  s.users.flatMap fun u =>
    (s.admins.filter fun a => u.id == a.userid && a.groupid == groupID).map
      fun _ => u.username

/-- Go `IsUserGroupAdmin`: the user id arrives as text and is compared with the
integer column through its decimal form. -/
def IsUserGroupAdmin (s : Store) (userID groupID : String) : Bool :=
  match s.admins.find? (fun a => toString a.userid == userID && a.groupid == groupID) with
  | some _ => true
  | none => false

/-- Go `DeleteAdmins`: the statement it runs is `DELETE FROM mods WHERE groupid=?`. -/
def DeleteAdmins (s : Store) (groupID : String) : Store :=
  { s with mods := s.mods.filter fun m => !(m.groupid == groupID) }

/-! ## Configuration -/

/-- Go `WriteConfig`. -/
def WriteConfig (s : Store) (key val : String) : Store :=
  { s with configs := insertOrReplaceConfig s.configs key val }

/-- Go `Config`: the stored value, or `"0"` when the key has no row. -/
def Config (s : Store) (key : String) : String :=
  match s.configs.find? (fun r => r.key == key) with
  | some r => r.val
  | none => "0"

/-- A value of the `map[string]interface{}` that `ConfigAllVals` returns. -/
inductive ConfigVal where
  | str (s : String)
  | bool (b : Bool)
deriving DecidableEq, Repr

/-- Go `ConfigAllVals`: the entries of the map, in the order of the literal. -/
def ConfigAllVals (s : Store) : List (String × ConfigVal) :=
  [ ("forum_name", .str (Config s ForumName)),
    ("header_msg", .str (Config s HeaderMsg)),
    ("signup_disabled", .bool (Config s SignupDisabled == "1")),
    ("group_creation_disabled", .bool (Config s GroupCreationDisabled == "1")),
    ("image_upload_enabled", .bool (Config s ImageUploadEnabled == "1")),
    ("file_upload_enabled", .bool (Config s FileUploadEnabled == "1")),
    ("allow_group_subscription", .bool (Config s AllowGroupSubscription == "1")),
    ("allow_topic_subscription", .bool (Config s AllowTopicSubscription == "1")),
    ("data_dir", .str (Config s DataDir)),
    ("default_from_mail", .str (Config s DefaultFromMail)),
    ("smtp_host", .str (Config s SMTPHost)),
    ("smtp_port", .str (Config s SMTPPort)),
    ("smtp_user", .str (Config s SMTPUser)),
    ("smtp_pass", .str (Config s SMTPPass)) ]

/-- Go map indexing `vals[key]` on the result of `ConfigAllVals`. -/
def mapIndex (vals : List (String × ConfigVal)) (key : String) : Option ConfigVal :=
  (vals.find? fun kv => kv.1 == key).map (·.2)

/-- Go `Migrate`: `createTables` is `db.CreateTables` (not part of the sources),
whatever it does to the store; the default settings are written after it. -/
def Migrate (createTables : Store → Store) (s : Store) : Store :=
  let s := createTables s
  let s := WriteConfig s "version" "1"
  let s := WriteConfig s HeaderMsg ""
  let s := WriteConfig s ForumName "Orange Forum"
  let s := WriteConfig s SignupDisabled "0"
  let s := WriteConfig s GroupCreationDisabled "0"
  let s := WriteConfig s FileUploadEnabled "0"
  let s := WriteConfig s ImageUploadEnabled "0"
  let s := WriteConfig s AllowGroupSubscription "0"
  let s := WriteConfig s AllowTopicSubscription "0"
  let s := WriteConfig s DataDir ""
  let s := WriteConfig s DefaultFromMail "admin@example.com"
  let s := WriteConfig s SMTPHost ""
  let s := WriteConfig s SMTPPort "25"
  let s := WriteConfig s SMTPUser ""
  WriteConfig s SMTPPass ""

/-! ## Sample stores -/

/-- A store with two users, one group, one topic, and alice as both moderator and
administrator of group `"1"`. -/
def sampleStore : Store :=
  { users := [newUserRow 1 "alice" "aa" "alice@example.com" false,
              newUserRow 2 "bob" "bb" "bob@example.com" false],
    groups := [{ id := "1", name := "general", desc := "", header_msg := "",
                 is_sticky := "0", is_private := "0", is_closed := "0",
                 created_date := 0, updated_date := 0 }],
    topics := [{ id := 1, content := "hello", authorid := 1, groupid := "1",
                 is_deleted := false, is_sticky := false, is_closed := false,
                 num_comments := 0, upvotes := 0, downvotes := 0, flagvotes := 0,
                 created_date := 0, updated_date := 0 }],
    mods := [{ id := 1, userid := 1, groupid := "1", created_date := 0 }],
    admins := [{ id := 1, userid := 1, groupid := "1", created_date := 0 }],
    configs := [] }

/-- The sample store with the token `"tok"` on alice's row and the largest `int64`
as its issuance second. -/
def farDateStore : Store :=
  { sampleStore with users := sampleStore.users.map fun r =>
      if r.username == "alice" then
        { r with reset_token := "tok", reset_token_date := 9223372036854775807 }
      else r }

/-- The store after alice was issued the token `"tok"` at second 1000. -/
def tokenStore : Store :=
  { sampleStore with users := sampleStore.users.map fun r =>
      if r.username == "alice" then { r with reset_token := "tok", reset_token_date := 1000 }
      else r }

/-- The token `RandSeq 64` returns when every draw is `0`. -/
def zeroToken : String := String.mk (List.replicate 64 '0')

/-- The instant half a second after second 1500000000 of the epoch. -/
def issueTime : Time := 1500000000500000000

/-- The store after `CreateResetToken` for alice at `issueTime`, every draw `0`. -/
def issuedStore : Store :=
  { sampleStore with users := sampleStore.users.map fun r =>
      if r.username == "alice" then
        { r with reset_token := zeroToken, reset_token_date := 1500000000 }
      else r }

/-- A bcrypt outcome that follows the library's length check: a password of more
than 72 bytes is rejected (`bcrypt.ErrPasswordTooLong`); for the others some bytes
stand for the salted hash. -/
def bcrypt72 : Bcrypt := fun passwd =>
  if passwd.utf8ByteSize > 72 then
    .error (Error.External "bcrypt: password length exceeds 72 bytes")
  else .ok (passwd.toList.map fun c => c.toNat % 256)

/-- A password of 73 bytes. -/
def longPasswd : String := String.mk (List.replicate 73 'a')

/-! ## Predicates used in the statements -/

/-- The data-model invariant on `users`: no two rows share a username. -/
def UniqueUsernames (s : Store) : Prop :=
  s.users.Pairwise fun a b => a.username ≠ b.username

instance (s : Store) : Decidable (UniqueUsernames s) := by
  unfold UniqueUsernames
  infer_instance

/-- Between `s0` and `s1` every table but `groups` is the same, the group rows are
the same in number and order, no column other than `is_closed` differs, and the
rows of groups other than `g` are the same. -/
def OnlyClosedFlagChanged (g : String) (s0 s1 : Store) : Prop :=
  s1.users = s0.users ∧ s1.topics = s0.topics ∧ s1.mods = s0.mods ∧
  s1.admins = s0.admins ∧ s1.configs = s0.configs ∧
  List.Forall₂
    (fun old new => new = { old with is_closed := new.is_closed } ∧ (old.id ≠ g → new = old))
    s0.groups s1.groups

/-! ## Configuration: lemmas -/

/-- Looking a key up among the rows that survive the removal of key `k`. -/
theorem find_filter_config (rows : List ConfigRow) (k k' : String) :
    (rows.filter (fun r => r.key != k)).find? (fun r => r.key == k') =
      if k' = k then none else rows.find? (fun r => r.key == k') := by
  induction rows with
  | nil => simp
  | cons r rs ih =>
    by_cases hk : r.key = k
    · have h1 : (r.key != k) = false := by simp [hk]
      simp only [List.filter_cons, h1, Bool.false_eq_true, if_false, ih]
      by_cases h : k' = k
      · simp [h]
      · have h2 : (r.key == k') = false := by
          simp only [beq_eq_false_iff_ne, ne_eq]
          exact fun e => h (e.symm.trans hk)
        simp [h, List.find?_cons, h2]
    · have h1 : (r.key != k) = true := by simp [hk]
      simp only [List.filter_cons, h1, if_true]
      by_cases hk' : r.key = k'
      · have h2 : (r.key == k') = true := by simp [hk']
        have h3 : ¬ k' = k := fun e => hk (hk'.trans e)
        simp [List.find?_cons, h2, h3]
      · have h2 : (r.key == k') = false := by simp [hk']
        simp only [List.find?_cons, h2, ih]

/-- Looking a key up after `INSERT OR REPLACE` of `(k, v)`. -/
theorem find_config_insertOrReplace (rows : List ConfigRow) (k v k' : String) :
    (insertOrReplaceConfig rows k v).find? (fun r => r.key == k') =
      if k' = k then some { key := k, val := v } else rows.find? (fun r => r.key == k') := by
  unfold insertOrReplaceConfig
  rw [List.find?_append, find_filter_config]
  by_cases h : k' = k
  · simp [h]
  · have h2 : ¬ k = k' := fun e => h e.symm
    simp [h, h2]

/-- `Config` after `WriteConfig`, for any key. -/
theorem Config_WriteConfig_ite (s : Store) (k v k' : String) :
    Config (WriteConfig s k v) k' = if k' = k then v else Config s k' := by
  unfold Config WriteConfig
  simp only [find_config_insertOrReplace]
  split_ifs <;> rfl

/-! ## Groups: soft delete -/

/-- The group the lookup finds after an `UPDATE` of `is_closed` on group `g`. -/
theorem find_group_setClosed (l : List GroupRow) (g c : String) :
    (l.map fun r => if r.id == g then { r with is_closed := c } else r).find?
        (fun r => r.id == g) =
      (l.find? (fun r => r.id == g)).map fun r => { r with is_closed := c } := by
  induction l with
  | nil => rfl
  | cons r rs ih =>
    by_cases h : r.id = g
    · have h1 : (r.id == g) = true := by simp [h]
      simp only [List.map_cons, List.find?_cons, h1, if_true, Option.map_some']
    · have h1 : (r.id == g) = false := by simp [h]
      simp only [List.map_cons, List.find?_cons, h1, Bool.false_eq_true, if_false, ih]

/-- An existing group is found by the lookup. -/
theorem find_group_of_mem (l : List GroupRow) (g : String) (h : ∃ r ∈ l, r.id = g) :
    ∃ r, l.find? (fun r => r.id == g) = some r := by
  cases hf : l.find? (fun r => r.id == g) with
  | some r => exact ⟨r, rfl⟩
  | none =>
    obtain ⟨r, hr, hg⟩ := h
    have := List.find?_eq_none.mp hf r hr
    simp [hg] at this

/-- An `UPDATE` of `is_closed` on group `g` keeps all else in `groups`. -/
theorem groups_frame_setClosed (l : List GroupRow) (g c : String) :
    List.Forall₂
      (fun old new => new = { old with is_closed := new.is_closed } ∧ (old.id ≠ g → new = old))
      l (l.map fun r => if r.id == g then { r with is_closed := c } else r) := by
  rw [List.forall₂_map_right_iff, List.forall₂_same]
  intro r _
  by_cases h : r.id = g
  · simp [h]
  · simp [h]

/-! ## Random tokens -/

/-- The alphabet has 62 letters. -/
theorem letters_length : letters.length = 62 := by decide

/-- Every letter of the alphabet is alphanumeric. -/
theorem letters_alnum : ∀ c ∈ letters, c.isAlphanum = true := by decide

/-- One iteration of the loop of `RandSeq` never indexes out of range. -/
theorem draw_letter (raw : Nat) :
    (Intn letters.length raw).bind (fun k => letters.get? k) =
      some (letters.getD (raw % 62) '0') := by
  have h : raw % 62 < letters.length := by
    rw [letters_length]; exact Nat.mod_lt _ (by decide)
  simp only [Intn, letters_length]
  simp [List.getD, List.getElem?_eq_getElem h, letters_length]

/-- A loop whose every step succeeds returns the list of the step results. -/
theorem mapM_some_eq {α β : Type} (f : α → Option β) (g : α → β)
    (h : ∀ a, f a = some (g a)) (l : List α) : l.mapM f = some (l.map g) := by
  induction l with
  | nil => rfl
  | cons a as ih => rw [List.mapM_cons, h, ih]; rfl

/-- The string `RandSeq` returns for a length that is not negative. -/
theorem RandSeq_eq (n : Int) (hn : 0 ≤ n) (rnd : Nat → Nat) :
    RandSeq n rnd =
      some (String.mk ((List.range n.toNat).map fun i => letters.getD (rnd i % 62) '0')) := by
  unfold RandSeq
  rw [if_neg (not_lt.mpr hn)]
  rw [mapM_some_eq _ (fun i => letters.getD (rnd i % 62) '0') (fun i => draw_letter (rnd i))]
  rfl

/-- An index below 62 picks a letter of the alphabet. -/
theorem getD_mem_letters (k : Nat) (hk : k < 62) : letters.getD k '0' ∈ letters := by
  have h : k < letters.length := by rw [letters_length]; exact hk
  simp [List.getD, List.getElem?_eq_getElem h]

/-- `RandSeq` returns, with the requested length and letters of the alphabet. -/
theorem randSeq_some (n : Int) (hn : 0 ≤ n) (rnd : Nat → Nat) :
    ∃ t : String, RandSeq n rnd = some t ∧ (t.length : Int) = n ∧ ∀ c ∈ t.toList, c ∈ letters := by
  refine ⟨_, RandSeq_eq n hn rnd, ?_, ?_⟩
  · simp [String.length, Int.toNat_of_nonneg hn]
  · intro c hc
    simp only [String.toList, List.mem_map, List.mem_range] at hc
    obtain ⟨i, _, rfl⟩ := hc
    exact getD_mem_letters _ (Nat.mod_lt _ (by decide))

/-- Go `len(s) > 0` holds exactly for the strings other than `""`. -/
theorem utf8ByteSize_pos_iff (t : String) : t.utf8ByteSize > 0 ↔ t ≠ "" := by
  rcases t with ⟨l⟩
  cases l with
  | nil => simp [String.utf8ByteSize, String.utf8ByteSize.go]
  | cons c cs =>
    have hpos := Char.utf8Size_pos c
    have hne : (⟨c :: cs⟩ : String) ≠ "" := by
      intro h
      exact absurd (congrArg String.data h) (by simp)
    constructor
    · intro _
      exact hne
    · intro _
      simp only [String.utf8ByteSize, String.utf8ByteSize.go]
      omega

/-! ## Reset tokens -/

/-- `ReadUserNameByToken` by cases, the time test solved for `now`. -/
theorem ReadUserNameByToken_cases (s : Store) (now : Time) (token : String) :
    ReadUserNameByToken s now token =
      if token = "" then .error (Error.New "Invalid/Expired reset token.")
      else match s.users.find? (fun r => r.reset_token == token) with
        | some r =>
          if now < timeUnix r.reset_token_date + 48 * Hour then .ok r.username
          else .error (Error.New "Invalid/Expired reset token.")
        | none => .error (Error.New "Invalid/Expired reset token.") := by
  unfold ReadUserNameByToken
  by_cases ht : token = ""
  · subst ht
    rfl
  · rw [if_pos ((utf8ByteSize_pos_iff token).mpr ht), if_neg ht]
    cases s.users.find? (fun r => r.reset_token == token) with
    | none => rfl
    | some r =>
      simp only [Time.After, Time.Add, decide_eq_true_eq]
      have : (now + -48 * Hour < timeUnix r.reset_token_date) ↔
          (now < timeUnix r.reset_token_date + 48 * Hour) := by
        constructor <;> intro h <;> linarith
      simp only [this]

/-- After the `UPDATE` of `CreateResetToken`, the token lookup finds a row of `u`
with the new date, when no other user stores the token. -/
theorem find_token_after_set (l : List UserRow) (u t : String) (d : Int)
    (hex : ∃ r ∈ l, r.username = u)
    (hno : ∀ r ∈ l, r.username ≠ u → r.reset_token ≠ t) :
    ∃ r', (l.map fun r => if r.username == u then
              { r with reset_token := t, reset_token_date := d } else r).find?
            (fun r => r.reset_token == t) = some r' ∧
          r'.username = u ∧ r'.reset_token_date = d := by
  induction l with
  | nil =>
    obtain ⟨r, hr, _⟩ := hex
    cases hr
  | cons a as ih =>
    by_cases ha : a.username = u
    · have h1 : (a.username == u) = true := by simp [ha]
      refine ⟨{ a with reset_token := t, reset_token_date := d }, ?_, ha, rfl⟩
      simp only [List.map_cons, h1, if_true, List.find?_cons, beq_self_eq_true]
    · have h1 : (a.username == u) = false := by simp [ha]
      have h2 : (a.reset_token == t) = false := by
        simp only [beq_eq_false_iff_ne, ne_eq]
        exact hno a (List.mem_cons_self _ _) ha
      obtain ⟨r, hr, hru⟩ := hex
      have hr' : r ∈ as := by
        rcases List.mem_cons.mp hr with h | h
        · exact absurd (h ▸ hru) ha
        · exact h
      obtain ⟨r', h', hu', hd'⟩ :=
        ih ⟨r, hr', hru⟩ (fun x hx hxu => hno x (List.mem_cons_of_mem _ hx) hxu)
      refine ⟨r', ?_, hu', hd'⟩
      simp only [List.map_cons, h1, Bool.false_eq_true, if_false, List.find?_cons, h2, h']

/-- After the `UPDATE` of `UpdateUserPasswd`, the token lookup finds no row, when
no other user stores the token. -/
theorem find_token_after_clear (l : List UserRow) (u t h : String) (ht : t ≠ "")
    (hno : ∀ r ∈ l, r.username ≠ u → r.reset_token ≠ t) :
    (l.map fun r => if r.username == u then
        { r with passwdhash := h, reset_token := "", reset_token_date := 0 } else r).find?
      (fun r => r.reset_token == t) = none := by
  rw [List.find?_eq_none]
  intro x hx
  obtain ⟨r, hr, rfl⟩ := List.mem_map.mp hx
  by_cases hu : r.username = u
  · have h1 : (r.username == u) = true := by simp [hu]
    simp only [h1, if_true, beq_iff_eq]
    exact fun e => ht e.symm
  · have h1 : (r.username == u) = false := by simp [hu]
    simp only [h1, Bool.false_eq_true, if_false, beq_iff_eq]
    exact hno r hr hu

/-- On the seconds it reads without wrapping, `time.Unix` is that many seconds
after the epoch. -/
theorem timeUnix_of_inRange (sec : Int) (h : InUnixRange sec) :
    timeUnix sec = sec * Second := by
  obtain ⟨hlo, hhi⟩ := h
  unfold timeUnix wrapInt64
  have hU : unixToInternal = 62135596800 := by decide
  rw [hU]
  have h1 : (sec + 62135596800 + 2 ^ 63) % 2 ^ 64 = sec + 62135596800 + 2 ^ 63 := by
    apply Int.emod_eq_of_lt <;> omega
  rw [h1]
  congr 1
  ring

/-- Rounding down to the whole second loses less than a second. -/
theorem fdiv_second_le (T : Int) (hT : InUnixRange (Time.Unix T)) :
    timeUnix (Time.Unix T) ≤ T ∧ T < timeUnix (Time.Unix T) + Second := by
  rw [timeUnix_of_inRange _ hT]
  unfold Time.Unix
  have hs : (0 : Int) < Second := by decide
  rw [Int.fdiv_eq_ediv T (le_of_lt hs)]
  constructor
  · exact Int.ediv_mul_le T (ne_of_gt hs)
  · exact Int.lt_ediv_add_one_mul_self T hs |>.trans_eq (by ring)

/-! ## Users: lemmas -/

/-- The username lookup finds nothing when no row holds the username. -/
theorem find_user_none (l : List UserRow) (u : String) (h : ∀ r ∈ l, r.username ≠ u) :
    l.find? (fun r => r.username == u) = none := by
  rw [List.find?_eq_none]
  intro r hr
  simpa using h r hr

/-- The username lookup finds the row appended for a fresh username. -/
theorem find_user_append_new (l : List UserRow) (u : String) (row : UserRow)
    (h : ∀ r ∈ l, r.username ≠ u) (hrow : row.username = u) :
    (l ++ [row]).find? (fun r => r.username == u) = some row := by
  rw [List.find?_append, find_user_none l u h]
  simp [List.find?_cons, hrow]

/-- The row appended for a fresh username is the only row of that username. -/
theorem filter_user_append_new (l : List UserRow) (u : String) (row : UserRow)
    (h : ∀ r ∈ l, r.username ≠ u) (hrow : row.username = u) :
    (l ++ [row]).filter (fun r => r.username == u) = [row] := by
  have h0 : l.filter (fun r => r.username == u) = [] := by
    rw [List.filter_eq_nil_iff]
    intro r hr
    simpa using h r hr
  rw [List.filter_append, h0]
  simp [List.filter_cons, hrow]

/-- With unique usernames, the username lookup finds the row of that username. -/
theorem find_user_unique (l : List UserRow) (u : String) (r : UserRow)
    (hp : l.Pairwise fun a b => a.username ≠ b.username) (hr : r ∈ l) (hu : r.username = u) :
    l.find? (fun x => x.username == u) = some r := by
  induction l with
  | nil => cases hr
  | cons a as ih =>
    rw [List.pairwise_cons] at hp
    rcases List.mem_cons.mp hr with h | h
    · subst h
      simp [List.find?_cons, hu]
    · have hne : a.username ≠ u := fun e => hp.1 r h (e.trans hu.symm)
      have h1 : (a.username == u) = false := by simp [hne]
      simp only [List.find?_cons, h1]
      exact ih hp.2 h

/-- `createUser` keeps the usernames unique. -/
theorem createUser_keeps_unique (s : Store) (bcrypt : Bcrypt) (u p e : String) (a : Bool)
    (h : UniqueUsernames s) : UniqueUsernames (createUser s bcrypt u p e a).2 := by
  unfold createUser
  cases bcrypt p with
  | error err => exact h
  | ok hash =>
    cases hf : s.users.find? (fun r => r.username == u) with
    | some r => exact h
    | none =>
      have hall : ∀ r ∈ s.users, r.username ≠ u := by
        intro r hr
        simpa using List.find?_eq_none.mp hf r hr
      unfold UniqueUsernames at h ⊢
      rw [List.pairwise_append]
      refine ⟨h, List.pairwise_singleton _ _, ?_⟩
      intro x hx y hy
      rw [List.mem_singleton] at hy
      subst hy
      exact hall x hx

/-! ## Claims -/

/-- C3 (amended): `ReadUserNameByToken` returns an error if and only if the token
is empty, or no user row stores it, or the issuance time lies 48 hours or more
before `now`; when the token is not empty and the issuance time is less than 48
hours old it returns that row's username with no error.  The issuance time is what
`time.Unix` reads from the seconds stored on the row the query returns (the first
row storing the token): that many seconds after the epoch for every stored value
from the least `int64` up to `9223371974719179007`, a wrapped instant above. -/
theorem ReadUserNameByToken_spec (s : Store) (now : Time) (token : String) :
    ((∃ e, ReadUserNameByToken s now token = .error e) ↔
      (token = "" ∨ (∀ r ∈ s.users, r.reset_token ≠ token) ∨
        ∃ r, s.users.find? (fun r => r.reset_token == token) = some r ∧
          now - timeUnix r.reset_token_date ≥ 48 * Hour)) ∧
    (∀ r, token ≠ "" → s.users.find? (fun r => r.reset_token == token) = some r →
      now - timeUnix r.reset_token_date < 48 * Hour →
      ReadUserNameByToken s now token = .ok r.username) ∧
    (∀ sec, InUnixRange sec → timeUnix sec = sec * Second) := by
  rw [ReadUserNameByToken_cases]
  refine ⟨?_, ?_, timeUnix_of_inRange⟩
  · by_cases ht : token = ""
    · simp [ht]
    · rw [if_neg ht]
      cases hf : s.users.find? (fun r => r.reset_token == token) with
      | none =>
        have hall : ∀ r ∈ s.users, r.reset_token ≠ token := by
          intro r hr
          simpa using List.find?_eq_none.mp hf r hr
        simp only [ht, false_or]
        exact ⟨fun _ => Or.inl hall, fun _ => ⟨_, rfl⟩⟩
      | some r =>
        have hmem : r ∈ s.users := List.mem_of_find?_eq_some hf
        have htok : r.reset_token = token := by simpa using List.find?_some hf
        by_cases hlt : now < timeUnix r.reset_token_date + 48 * Hour
        · simp only [hlt, if_true, ht, false_or]
          constructor
          · rintro ⟨e, he⟩
            cases he
          · rintro (h | ⟨r', hr', hge⟩)
            · exact absurd htok (h r hmem)
            · cases hr'
              exact absurd hlt (by linarith)
        · simp only [hlt, if_false, ht, false_or]
          exact ⟨fun _ => Or.inr ⟨r, rfl, by linarith⟩, fun _ => ⟨_, rfl⟩⟩
  · intro r ht hf hlt
    rw [if_neg ht, hf]
    simp only
    rw [if_pos (by linarith)]

/-- C4 (amended): a token that `CreateResetToken` returns for an existing user `u`
at time `T`, held by no other user, resolves to `u` at every time earlier than 48
hours after the instant `time.Unix` reads from the stored seconds of `T`, and fails
at every time from then on.  For a clock reading `T` (its seconds are an `int64`
that `time.Unix` reads without wrapping) that instant is `T` rounded down to the
whole second, so that the token resolves to `u` at `T + 47h59m` and at every time up
to `T + 48h - 1s`, and fails at `T + 48h01m` and at every time from `T + 48h` on. -/
theorem CreateResetToken_then_resolve (s s' : Store) (rnd : Nat → Nat) (T : Time)
    (u t : String)
    (hu : ∃ r ∈ s.users, r.username = u)
    (hc : CreateResetToken s rnd T u = some (t, s'))
    (hno : ∀ r ∈ s.users, r.username ≠ u → r.reset_token ≠ t) :
    (∀ now, now < timeUnix (Time.Unix T) + 48 * Hour →
      ReadUserNameByToken s' now t = .ok u) ∧
    (∀ now, timeUnix (Time.Unix T) + 48 * Hour ≤ now →
      ∃ e, ReadUserNameByToken s' now t = .error e) ∧
    (InUnixRange (Time.Unix T) →
      timeUnix (Time.Unix T) ≤ T ∧ T < timeUnix (Time.Unix T) + Second ∧
      ReadUserNameByToken s' (T + 47 * Hour + 59 * Minute) t = .ok u ∧
      (∃ e, ReadUserNameByToken s' (T + 48 * Hour + Minute) t = .error e) ∧
      (∀ now, now ≤ T + 48 * Hour - Second → ReadUserNameByToken s' now t = .ok u) ∧
      (∀ now, T + 48 * Hour ≤ now → ∃ e, ReadUserNameByToken s' now t = .error e)) := by
  obtain ⟨t0, ht0, hlen, _⟩ := randSeq_some 64 (by decide) rnd
  unfold CreateResetToken at hc
  rw [ht0] at hc
  simp only [Option.map_some', Option.some.injEq, Prod.mk.injEq] at hc
  obtain ⟨ht, hs'⟩ := hc
  subst ht
  have hne : t0 ≠ "" := by
    intro h
    rw [h] at hlen
    simp at hlen
  obtain ⟨r', hf0, hru, hrd⟩ := find_token_after_set s.users u t0 (Time.Unix T) hu hno
  have hf : s'.users.find? (fun r => r.reset_token == t0) = some r' := by
    rw [← hs']
    exact hf0
  have hok : ∀ now, now < timeUnix (Time.Unix T) + 48 * Hour →
      ReadUserNameByToken s' now t0 = .ok u := by
    intro now hnow
    rw [ReadUserNameByToken_cases, if_neg hne]
    simp only [hf, hrd, hnow, if_true, hru]
  have herr : ∀ now, timeUnix (Time.Unix T) + 48 * Hour ≤ now →
      ∃ e, ReadUserNameByToken s' now t0 = .error e := by
    intro now hnow
    rw [ReadUserNameByToken_cases, if_neg hne]
    simp only [hf, hrd, not_lt.mpr hnow, if_false]
    exact ⟨_, rfl⟩
  refine ⟨hok, herr, fun hT => ?_⟩
  obtain ⟨hlo, hhi⟩ := fdiv_second_le T hT
  have hS : Second = 1000000000 := rfl
  have hM : Minute = 60 * 1000000000 := rfl
  have hH : Hour = 60 * (60 * 1000000000) := rfl
  refine ⟨hlo, hhi, hok _ ?_, herr _ ?_, fun now h => hok now ?_, fun now h => herr now ?_⟩
  · rw [hS] at hhi; rw [hM, hH]; linarith
  · rw [hM, hH]; linarith
  · rw [hS] at hhi h; linarith
  · linarith

/-- C5 (amended): when the hash of the new password is generated without error and
no user other than `u` stores the token `t`, `UpdateUserPasswd(u, p)` returns no
error, `ReadUserNameByToken(t)` returns an error at every later time, and every row
of `u` has the empty reset token with issuance time 0. -/
theorem UpdateUserPasswd_clears_token (s : Store) (bcrypt : Bcrypt) (u t p : String)
    (h : List Nat) (hb : bcrypt p = .ok h)
    (hno : ∀ r ∈ s.users, r.username ≠ u → r.reset_token ≠ t) :
    (UpdateUserPasswd s bcrypt u p).1 = none ∧
    (∀ now, ∃ e, ReadUserNameByToken (UpdateUserPasswd s bcrypt u p).2 now t = .error e) ∧
    (∀ r ∈ (UpdateUserPasswd s bcrypt u p).2.users, r.username = u →
      r.reset_token = "" ∧ r.reset_token_date = 0) := by
  unfold UpdateUserPasswd
  rw [hb]
  refine ⟨rfl, ?_, ?_⟩
  · intro now
    rw [ReadUserNameByToken_cases]
    by_cases ht : t = ""
    · rw [if_pos ht]
      exact ⟨_, rfl⟩
    · rw [if_neg ht]
      simp only [find_token_after_clear s.users u t _ ht hno]
      exact ⟨_, rfl⟩
  · intro r hr hru
    simp only [List.mem_map] at hr
    obtain ⟨r0, _, rfl⟩ := hr
    by_cases h0 : r0.username = u
    · have h1 : (r0.username == u) = true := by simp [h0]
      simp only [h1, if_true, and_self]
    · have h1 : (r0.username == u) = false := by simp [h0]
      simp only [h1, Bool.false_eq_true, if_false] at hru
      exact absurd hru h0

/-- C2 (amended): for a username `u` that no user row holds and passwords `p`, `p2`
whose hash is generated without error, `CreateUser(u, p, e)` returns no error and
appends one user row for `u` with the hex form of that hash and email `e`, and a
following `CreateUser(u, p2, e2)` returns `ErrUserAlreadyExists` and leaves the
store as the first call left it, that row being the only row of `u`. -/
theorem CreateUser_twice (s : Store) (bcrypt bcrypt2 : Bcrypt) (u p e p2 e2 : String)
    (h h2 : List Nat)
    (hfresh : ∀ r ∈ s.users, r.username ≠ u)
    (hb : bcrypt p = .ok h) (hb2 : bcrypt2 p2 = .ok h2) :
    (CreateUser s bcrypt u p e).1 = none ∧
    (∃ row : UserRow, row.username = u ∧ row.passwdhash = hexEncodeToString h ∧
      row.email = e ∧
      (CreateUser s bcrypt u p e).2 = { s with users := s.users ++ [row] } ∧
      (CreateUser s bcrypt u p e).2.users.filter (fun r => r.username == u) = [row]) ∧
    CreateUser (CreateUser s bcrypt u p e).2 bcrypt2 u p2 e2 =
      (some Error.ErrUserAlreadyExists, (CreateUser s bcrypt u p e).2) := by
  have h1 : CreateUser s bcrypt u p e =
      (none, { s with users := s.users ++
        [newUserRow (nextId (s.users.map (·.id))) u (hexEncodeToString h) e false] }) := by
    unfold CreateUser createUser
    rw [hb]
    simp only [find_user_none s.users u hfresh]
  rw [h1]
  refine ⟨rfl, ⟨_, rfl, rfl, rfl, rfl, ?_⟩, ?_⟩
  · exact filter_user_append_new s.users u _ hfresh rfl
  · unfold CreateUser createUser
    rw [hb2]
    simp only [find_user_append_new s.users u
      (newUserRow (nextId (s.users.map (·.id))) u (hexEncodeToString h) e false) hfresh rfl]

/-- C3 (witness): in `tokenStore`, 47 hours after the issuance of `"tok"`, the token
resolves to alice. -/
theorem ReadUserNameByToken_spec_witness :
    ReadUserNameByToken tokenStore (timeUnix 1000 + 47 * Hour) "tok" = .ok "alice" :=
  (ReadUserNameByToken_spec tokenStore (timeUnix 1000 + 47 * Hour) "tok").2.1
    { newUserRow 1 "alice" "aa" "alice@example.com" false with
      reset_token := "tok", reset_token_date := 1000 }
    (by decide) (by decide) (by decide)

/-- C3 (counterexample): (a) exactly 48 hours after issuance the token is not
empty, a row stores it, and the issuance time is not more than 48 hours old, yet
`ReadUserNameByToken` returns the error; (b) with the largest `int64` as the stored
issuance second, which `time.Unix` wraps into the far past, the token is not empty,
a row stores it, and the stored second is not more than 48 hours before `now` (it
is after it), yet `ReadUserNameByToken` returns the error. -/
theorem ReadUserNameByToken_at_48h :
    ("tok" ≠ "" ∧
      (tokenStore.users.find? (fun r => r.reset_token == "tok")).map
        (fun r => (r.username, r.reset_token_date)) = some ("alice", 1000) ∧
      ¬ ((1000 * Second + 48 * Hour) - 1000 * Second > 48 * Hour) ∧
      ReadUserNameByToken tokenStore (1000 * Second + 48 * Hour) "tok" =
        .error (Error.New "Invalid/Expired reset token.")) ∧
    ((farDateStore.users.find? (fun r => r.reset_token == "tok")).map
        (fun r => (r.username, r.reset_token_date)) =
        some ("alice", 9223372036854775807) ∧
      ¬ (issueTime - 9223372036854775807 * Second > 48 * Hour) ∧
      ReadUserNameByToken farDateStore issueTime "tok" =
        .error (Error.New "Invalid/Expired reset token.")) := by
  decide

/-- C4 (witness): the token issued to alice at `issueTime` resolves one second
before `issueTime + 48h`. -/
theorem CreateResetToken_then_resolve_witness :
    ReadUserNameByToken issuedStore (issueTime + 48 * Hour - Second) zeroToken = .ok "alice" :=
  (CreateResetToken_then_resolve sampleStore issuedStore (fun _ => 0) issueTime "alice"
    zeroToken (by decide) (by decide) (by decide)).2.2 (by decide) |>.2.2.2.2.1 _ (le_refl _)

/-- C4 (counterexample): a token issued to alice half a second past a whole second
fails one nanosecond before `T + 48h`, a time earlier than `T + 48h`. -/
theorem CreateResetToken_subsecond_expiry :
    (CreateResetToken sampleStore (fun _ => 0) issueTime "alice").map
        (fun p => (p.1, ReadUserNameByToken p.2 (issueTime + 48 * Hour - 1) p.1)) =
      some (zeroToken, .error (Error.New "Invalid/Expired reset token.")) ∧
    issueTime + 48 * Hour - 1 < issueTime + 48 * Hour ∧
    (∃ r ∈ sampleStore.users, r.username = "alice") ∧
    (∀ r ∈ sampleStore.users, r.username ≠ "alice" → r.reset_token ≠ zeroToken) := by
  decide

/-- C5 (witness): after alice changes her password in `issuedStore`, her token no
longer resolves one hour after it was issued. -/
theorem UpdateUserPasswd_clears_token_witness :
    ∃ e, ReadUserNameByToken (UpdateUserPasswd issuedStore bcrypt72 "alice" "secret").2
      (issueTime + Hour) zeroToken = .error e :=
  (UpdateUserPasswd_clears_token issuedStore bcrypt72 "alice" zeroToken "secret"
    [115, 101, 99, 114, 101, 116] (by decide) (by decide)).2.1 (issueTime + Hour)

/-- C5 (counterexample): (a) when the hash of the new password is not generated,
`UpdateUserPasswd` returns the error and alice's token still resolves; (b) when bob
was issued the same token (the same draws), the token resolves to bob after alice
changed her password. -/
theorem UpdateUserPasswd_token_survives :
    ((UpdateUserPasswd issuedStore bcrypt72 "alice" longPasswd).1 =
        some (Error.External "bcrypt: password length exceeds 72 bytes") ∧
      ReadUserNameByToken (UpdateUserPasswd issuedStore bcrypt72 "alice" longPasswd).2
        (issueTime + Hour) zeroToken = .ok "alice") ∧
    ((CreateResetToken issuedStore (fun _ => 0) issueTime "bob").map
        (fun p => (p.1, ReadUserNameByToken
          (UpdateUserPasswd p.2 bcrypt72 "alice" "secret").2 (issueTime + Hour) zeroToken)) =
      some (zeroToken, .ok "bob")) := by
  decide

/-- C2 (witness): carol is not in the sample store; she is created once and the
second creation is refused. -/
theorem CreateUser_twice_witness :
    (CreateUser sampleStore bcrypt72 "carol" "secret" "carol@example.com").1 = none ∧
    CreateUser (CreateUser sampleStore bcrypt72 "carol" "secret" "carol@example.com").2
        bcrypt72 "carol" "other" "c@example.com" =
      (some Error.ErrUserAlreadyExists,
        (CreateUser sampleStore bcrypt72 "carol" "secret" "carol@example.com").2) :=
  have h := CreateUser_twice sampleStore bcrypt72 bcrypt72 "carol" "secret"
    "carol@example.com" "other" "c@example.com" [115, 101, 99, 114, 101, 116]
    [111, 116, 104, 101, 114] (by decide) (by decide) (by decide)
  ⟨h.1, h.2.2⟩

/-- C2 (counterexample): no row holds the username carol, the password has 73
bytes, the hash is not generated, and `CreateUser` returns that error and adds no
row; and when carol exists, a second `CreateUser` with such a password returns the
hash error, not `ErrUserAlreadyExists`. -/
theorem CreateUser_hash_error :
    (∀ r ∈ sampleStore.users, r.username ≠ "carol") ∧
    CreateUser sampleStore bcrypt72 "carol" longPasswd "carol@example.com" =
      (some (Error.External "bcrypt: password length exceeds 72 bytes"), sampleStore) ∧
    (CreateUser (CreateUser sampleStore bcrypt72 "carol" "secret" "carol@example.com").2
        bcrypt72 "carol" longPasswd "c@example.com").1 =
      some (Error.External "bcrypt: password length exceeds 72 bytes") := by
  decide

/-- C1 (code at the failing input): in the sample store alice is moderator and
administrator of group `"1"`.  `DeleteMods("1")` leaves her moderator row and removes
her administrator row; `DeleteAdmins("1")` leaves her administrator row and removes
her moderator row; and `DeleteMods("1")` on a store with no moderator row changes
the store. -/
theorem DeleteMods_DeleteAdmins_swapped :
    ReadMods (DeleteMods sampleStore "1") "1" = ["alice"] ∧
    ReadAdmins (DeleteMods sampleStore "1") "1" = [] ∧
    ReadAdmins (DeleteAdmins sampleStore "1") "1" = ["alice"] ∧
    IsUserGroupAdmin (DeleteAdmins sampleStore "1") "1" "1" = true ∧
    ReadMods (DeleteAdmins sampleStore "1") "1" = [] ∧
    ReadMods { sampleStore with mods := [] } "1" = [] ∧
    DeleteMods { sampleStore with mods := [] } "1" ≠ { sampleStore with mods := [] } := by
  decide

/-- C6: `Config(k)` is `"0"` when no row holds `k`; after `WriteConfig(k, v)`,
`Config(k)` is `v` for every earlier content of the store, a second write to `k`
wins over the first, and `Config` of every other key is what it was. -/
theorem Config_WriteConfig_spec (s : Store) (k v : String) :
    ((∀ r ∈ s.configs, r.key ≠ k) → Config s k = "0") ∧
    Config (WriteConfig s k v) k = v ∧
    (∀ v2, Config (WriteConfig (WriteConfig s k v) k v2) k = v2) ∧
    (∀ k2, k2 ≠ k → Config (WriteConfig s k v) k2 = Config s k2) := by
  refine ⟨?_, ?_, ?_, ?_⟩
  · intro h
    have hf : s.configs.find? (fun r => r.key == k) = none := by
      rw [List.find?_eq_none]
      intro r hr
      simpa using h r hr
    simp only [Config, hf]
  · rw [Config_WriteConfig_ite, if_pos rfl]
  · intro v2
    rw [Config_WriteConfig_ite, if_pos rfl]
  · intro k2 hk
    rw [Config_WriteConfig_ite, if_neg hk]

/-- C6 (witness): the sample store has no configuration row, so a key reads `"0"`,
and a key differing from the written one is not affected. -/
theorem Config_WriteConfig_spec_witness :
    Config sampleStore "nonexistent_key" = "0" ∧
    Config (WriteConfig sampleStore "k" "v") "nonexistent_key" =
      Config sampleStore "nonexistent_key" :=
  have h := Config_WriteConfig_spec sampleStore "nonexistent_key" "v"
  have h2 := Config_WriteConfig_spec sampleStore "k" "v"
  ⟨h.1 (by decide), h2.2.2.2 "nonexistent_key" (by decide)⟩

/-- C7: for an existing group `g`, `ReadGroupIsDeleted(g)` is true after
`DeleteGroup(g)` and false after a following `UndeleteGroup(g)`; each of the two
operations changes nothing in the store but the `is_closed` flag of the rows of
group `g`. -/
theorem DeleteGroup_UndeleteGroup_spec (s : Store) (g : String)
    (hg : ∃ r ∈ s.groups, r.id = g) :
    ReadGroupIsDeleted (DeleteGroup s g) g = true ∧
    ReadGroupIsDeleted (UndeleteGroup (DeleteGroup s g) g) g = false ∧
    OnlyClosedFlagChanged g s (DeleteGroup s g) ∧
    OnlyClosedFlagChanged g (DeleteGroup s g) (UndeleteGroup (DeleteGroup s g) g) ∧
    OnlyClosedFlagChanged g s (UndeleteGroup s g) := by
  obtain ⟨r, hr⟩ := find_group_of_mem s.groups g hg
  refine ⟨?_, ?_, ?_, ?_, ?_⟩
  · simp only [ReadGroupIsDeleted, DeleteGroup, find_group_setClosed, hr, Option.map_some']
    rfl
  · simp only [ReadGroupIsDeleted, DeleteGroup, UndeleteGroup, find_group_setClosed, hr,
      Option.map_some']
    rfl
  · exact ⟨rfl, rfl, rfl, rfl, rfl, groups_frame_setClosed _ _ _⟩
  · exact ⟨rfl, rfl, rfl, rfl, rfl, groups_frame_setClosed _ _ _⟩
  · exact ⟨rfl, rfl, rfl, rfl, rfl, groups_frame_setClosed _ _ _⟩

/-- C7 (witness): group `"1"` of the sample store, with its topic kept. -/
theorem DeleteGroup_UndeleteGroup_spec_witness :
    ReadGroupIsDeleted (DeleteGroup sampleStore "1") "1" = true ∧
    ReadGroupIsDeleted (UndeleteGroup (DeleteGroup sampleStore "1") "1") "1" = false ∧
    (DeleteGroup sampleStore "1").topics = sampleStore.topics :=
  have h := DeleteGroup_UndeleteGroup_spec sampleStore "1" (by decide)
  ⟨h.1, h.2.1, h.2.2.1.2.1⟩

/-- C8: when no user row has username `u`, `CreateMod(u, g)` and `CreateAdmin(u, g)`
return the store as it was (neither returns an error value); when a user row with
username `u` and id `i` exists (usernames being unique), `CreateMod(u, g)` appends
exactly one mod row with user `i` and group `g` and `ReadMods(g)` then contains `u`,
and `CreateAdmin(u, g)` appends exactly one admin row with user `i` and group `g`
and `IsUserGroupAdmin(i, g)` is then true. -/
theorem CreateMod_CreateAdmin_spec (s : Store) (now : Time) (u g : String) :
    ((∀ r ∈ s.users, r.username ≠ u) →
      CreateMod s now u g = s ∧ CreateAdmin s now u g = s) ∧
    (∀ r ∈ s.users, r.username = u → UniqueUsernames s →
      (∃ m : ModRow, m.userid = r.id ∧ m.groupid = g ∧
        CreateMod s now u g = { s with mods := s.mods ++ [m] }) ∧
      u ∈ ReadMods (CreateMod s now u g) g ∧
      (∃ a : AdminRow, a.userid = r.id ∧ a.groupid = g ∧
        CreateAdmin s now u g = { s with admins := s.admins ++ [a] }) ∧
      IsUserGroupAdmin (CreateAdmin s now u g) (toString r.id) g = true) := by
  constructor
  · intro h
    have hf := find_user_none s.users u h
    simp only [CreateMod, CreateAdmin, ReadUserIDByName, hf, and_self]
  · intro r hr hu hwf
    have hf := find_user_unique s.users u r hwf hr hu
    have hm : CreateMod s now u g = { s with mods := s.mods ++
        [{ id := nextId (s.mods.map (·.id)), userid := r.id, groupid := g,
           created_date := Time.Unix now }] } := by
      simp only [CreateMod, ReadUserIDByName, hf]
    have ha : CreateAdmin s now u g = { s with admins := s.admins ++
        [{ id := nextId (s.admins.map (·.id)), userid := r.id, groupid := g,
           created_date := Time.Unix now }] } := by
      simp only [CreateAdmin, ReadUserIDByName, hf]
    refine ⟨⟨_, rfl, rfl, hm⟩, ?_, ⟨_, rfl, rfl, ha⟩, ?_⟩
    · rw [hm]
      unfold ReadMods
      rw [List.mem_flatMap]
      refine ⟨r, hr, ?_⟩
      rw [List.mem_map]
      refine ⟨{ id := nextId (s.mods.map (·.id)), userid := r.id, groupid := g,
                created_date := Time.Unix now }, ?_, hu⟩
      rw [List.mem_filter]
      exact ⟨List.mem_append_right _ (List.mem_singleton_self _), by simp⟩
    · rw [ha]
      unfold IsUserGroupAdmin
      cases hfa : List.find? (fun a => toString a.userid == toString r.id && a.groupid == g)
          (s.admins ++ [{ id := nextId (s.admins.map (·.id)), userid := r.id, groupid := g,
                          created_date := Time.Unix now }]) with
      | some _ => rfl
      | none =>
        have := List.find?_eq_none.mp hfa _
          (List.mem_append_right _ (List.mem_singleton_self _))
        simp at this

/-- C8 (witness): bob (id 2) becomes moderator and administrator of group `"1"`,
and nothing happens for the unknown user carol. -/
theorem CreateMod_CreateAdmin_spec_witness :
    CreateMod sampleStore 0 "carol" "1" = sampleStore ∧
    "bob" ∈ ReadMods (CreateMod sampleStore 0 "bob" "1") "1" ∧
    IsUserGroupAdmin (CreateAdmin sampleStore 0 "bob" "1") (toString (2 : Int)) "1" = true :=
  have h := (CreateMod_CreateAdmin_spec sampleStore 0 "bob" "1").2
    (newUserRow 2 "bob" "bb" "bob@example.com" false) (by decide) (by decide) (by decide)
  ⟨((CreateMod_CreateAdmin_spec sampleStore 0 "carol" "1").1 (by decide)).1, h.2.1, h.2.2.2⟩

/-- C9: whatever the store holds before and whatever `db.CreateTables` does, after
`Migrate()` the forum name is `"Orange Forum"`, the header message is empty, the
SMTP port is `"25"`, each of the six feature flags reads `"0"`, and `ConfigAllVals()`
reports each of the six as false. -/
theorem Migrate_defaults (createTables : Store → Store) (s : Store) :
    Config (Migrate createTables s) ForumName = "Orange Forum" ∧
    Config (Migrate createTables s) HeaderMsg = "" ∧
    Config (Migrate createTables s) SMTPPort = "25" ∧
    (∀ k ∈ [SignupDisabled, GroupCreationDisabled, ImageUploadEnabled, FileUploadEnabled,
        AllowGroupSubscription, AllowTopicSubscription],
      Config (Migrate createTables s) k = "0" ∧
      mapIndex (ConfigAllVals (Migrate createTables s)) k = some (.bool false)) := by
  have hv : Config (Migrate createTables s) ForumName = "Orange Forum" ∧
      Config (Migrate createTables s) HeaderMsg = "" ∧
      Config (Migrate createTables s) SMTPPort = "25" ∧
      Config (Migrate createTables s) SignupDisabled = "0" ∧
      Config (Migrate createTables s) GroupCreationDisabled = "0" ∧
      Config (Migrate createTables s) ImageUploadEnabled = "0" ∧
      Config (Migrate createTables s) FileUploadEnabled = "0" ∧
      Config (Migrate createTables s) AllowGroupSubscription = "0" ∧
      Config (Migrate createTables s) AllowTopicSubscription = "0" := by
    simp [Migrate, Config_WriteConfig_ite, ForumName, HeaderMsg, SMTPPort, SMTPPass,
      SMTPUser, SMTPHost, DefaultFromMail, DataDir, AllowTopicSubscription,
      AllowGroupSubscription, ImageUploadEnabled, FileUploadEnabled, GroupCreationDisabled,
      SignupDisabled]
  obtain ⟨h1, h2, h3, h4, h5, h6, h7, h8, h9⟩ := hv
  refine ⟨h1, h2, h3, ?_⟩
  intro k hk
  simp only [List.mem_cons, List.mem_singleton, List.not_mem_nil, or_false] at hk
  rcases hk with h | h | h | h | h | h <;> subst h
  · exact ⟨h4, by simp only [mapIndex, ConfigAllVals, h4]; rfl⟩
  · exact ⟨h5, by simp only [mapIndex, ConfigAllVals, h5]; rfl⟩
  · exact ⟨h6, by simp only [mapIndex, ConfigAllVals, h6]; rfl⟩
  · exact ⟨h7, by simp only [mapIndex, ConfigAllVals, h7]; rfl⟩
  · exact ⟨h8, by simp only [mapIndex, ConfigAllVals, h8]; rfl⟩
  · exact ⟨h9, by simp only [mapIndex, ConfigAllVals, h9]; rfl⟩

/-- C9 (witness): the six flags after `Migrate` on the sample store, with a
`db.CreateTables` that leaves the rows alone. -/
theorem Migrate_defaults_witness :
    Config (Migrate id sampleStore) SignupDisabled = "0" ∧
    mapIndex (ConfigAllVals (Migrate id sampleStore)) SignupDisabled = some (.bool false) :=
  (Migrate_defaults id sampleStore).2.2.2 SignupDisabled (by decide)

/-- C10: for every `n ≥ 0` and every sequence of draws, `RandSeq(n)` returns (no
index is out of range) a string of exactly `n` characters, each one of the 62
distinct letters of the alphabet, all of them digits or ASCII letters; and
`CreateResetToken` always returns a token of exactly 64 such characters, which is
not the empty string. -/
theorem RandSeq_spec (n : Int) (hn : 0 ≤ n) (rnd : Nat → Nat) :
    (∃ t : String, RandSeq n rnd = some t ∧ (t.length : Int) = n ∧
      ∀ c ∈ t.toList, c ∈ letters) ∧
    letters.length = 62 ∧ letters.Nodup ∧
    (∀ c ∈ letters, c.isDigit = true ∨ c.isLower = true ∨ c.isUpper = true) ∧
    (∀ (s : Store) (now : Time) (u : String), ∃ t s',
      CreateResetToken s rnd now u = some (t, s') ∧ t.length = 64 ∧
      (∀ c ∈ t.toList, c ∈ letters) ∧ t ≠ "") := by
  refine ⟨randSeq_some n hn rnd, letters_length, by decide, by decide, ?_⟩
  intro s now u
  obtain ⟨t, ht, hlen, hall⟩ := randSeq_some 64 (by decide) rnd
  have hlen2 : t.length = 64 := by exact_mod_cast hlen
  refine ⟨t, { s with users := s.users.map fun r =>
      if r.username == u then
        { r with reset_token := t, reset_token_date := Time.Unix now }
      else r }, ?_, hlen2, hall, ?_⟩
  · unfold CreateResetToken
    rw [ht]
    rfl
  · intro h
    rw [h] at hlen2
    simp at hlen2

/-- C10 (witness): sixty-four draws `0, 1, 2, ...` give a token of 64 letters. -/
theorem RandSeq_spec_witness :
    ∃ t : String, RandSeq 64 (fun i => i) = some t ∧ (t.length : Int) = 64 ∧
      ∀ c ∈ t.toList, c ∈ letters :=
  (RandSeq_spec 64 (by decide) (fun i => i)).1

end models
